import Mathlib

/-!
Verification of the powerviz retrieval-and-normalization client
(src/powerviz/base.py, src/powerviz/miso.py, src/powerviz/types.py)
against its natural-language specification.

The Python source is shallowly embedded: pure computations (filename
derivation, reference-id validation) become Lean functions on plain data;
the async transport is modelled by explicit oracles (a fetch function
returning an Except outcome per URL), and the batch orchestrator's
as-completed processing loop becomes a fold over an arbitrary completion
order of the distinct URL set.  Timestamps are modelled as integer minute
counts; the operator's fixed local offset (EST, which never observes
daylight saving) means to_native_tz is the identity on the calendar
fields used by the code modelled here, so dates are plain Gregorian
calendar dates.
-/

namespace Powerviz

/-! ## Calendar dates

Python datetime date arithmetic, restricted to what the source uses:
adding one day (publish-date naming) and strftime with the two formats
that appear in MISOClient.market_report_filename. -/

/-- A Gregorian calendar date (proleptic, as Python's datetime). -/
structure Date where
  year : Nat
  month : Nat
  day : Nat
deriving DecidableEq, Repr

/-- Gregorian leap-year rule, as used by Python's datetime. -/
def isLeapYear (y : Nat) : Bool :=
  y % 4 == 0 && (y % 100 != 0 || y % 400 == 0)

/-- Number of days in a month of a given year. -/
def daysInMonth (y m : Nat) : Nat :=
  if m == 2 then (if isLeapYear y then 29 else 28)
  else if m == 4 || m == 6 || m == 9 || m == 11 then 30
  else 31

/-- Embeds the Python expression date + dt.timedelta(days=1). -/
def nextDay (d : Date) : Date :=
  if d.day < daysInMonth d.year d.month then ⟨d.year, d.month, d.day + 1⟩
  else if d.month < 12 then ⟨d.year, d.month + 1, 1⟩
  else ⟨d.year + 1, 1, 1⟩

/-- Zero-pad a natural number to at least two digits (strftime %m, %d). -/
def pad2 (n : Nat) : String :=
  if n < 10 then "0" ++ Nat.repr n else Nat.repr n

/-- Zero-pad a natural number to at least four digits (strftime %Y). -/
def pad4 (n : Nat) : String :=
  if n < 10 then "000" ++ Nat.repr n
  else if n < 100 then "00" ++ Nat.repr n
  else if n < 1000 then "0" ++ Nat.repr n
  else Nat.repr n

/-- Embeds date.strftime with format %Y%m%d. -/
def fmtYYYYMMDD (d : Date) : String :=
  pad4 d.year ++ pad2 d.month ++ pad2 d.day

/-- Embeds date.strftime with format %Y%m. -/
def fmtYYYYMM (d : Date) : String :=
  pad4 d.year ++ pad2 d.month

/-- Days since 1970-01-01 of a civil date (standard Gregorian formula);
used to place calendar days on the integer timestamp axis. -/
def daysFromCivil (d : Date) : Int :=
  let y : Int := if d.month ≤ 2 then (d.year : Int) - 1 else (d.year : Int)
  let era : Int := (if y ≥ 0 then y else y - 399) / 400
  let yoe : Int := y - era * 400
  let mp : Int := ((d.month : Int) + 9) % 12
  let doy : Int := (153 * mp + 2) / 5 + (d.day : Int) - 1
  let doe : Int := yoe * 365 + yoe / 4 - yoe / 100 + doy
  era * 146097 + doe - 719468

/-- Timestamp (in minutes) of a calendar day's midnight in the operator's
fixed local offset. -/
def dateToMin (d : Date) : Int :=
  1440 * daysFromCivil d

/-! ## Report kinds and filenames (miso.py) -/

/-- Embeds the MISOMarketReport enum. -/
inductive MISOMarketReport where
  | FORECAST_AND_LOAD
  | GENERATION_FUEL_MIX
  | DAYAHEAD_EXANTE_LMP
  | DAYAHEAD_EXPOST_LMP
  | REALTIME_EXANTE_LMP
deriving DecidableEq, Repr

/-- Embeds the MARKET_REPORT_FILES_SUFFIX_EXT dictionary of
MISOClient.market_report_filename: (suffix, extension) per report kind. -/
def MARKET_REPORT_FILES_SUFFIX_EXT : MISOMarketReport → String × String
  | .FORECAST_AND_LOAD => ("df_al", "xls")
  | .GENERATION_FUEL_MIX => ("sr_gfm", "xlsx")
  | .DAYAHEAD_EXANTE_LMP => ("da_exante_lmp", "csv")
  | .DAYAHEAD_EXPOST_LMP => ("da_expost_lmp", "csv")
  | .REALTIME_EXANTE_LMP => ("5min_exante_lmp", "xlsx")

/-- Embeds the tuple of report kinds named by publish date in
MISOClient.market_report_filename (the membership test guarding the
one-day advance). -/
def publish_date_reports : List MISOMarketReport :=
  [.FORECAST_AND_LOAD, .GENERATION_FUEL_MIX, .REALTIME_EXANTE_LMP]

/-- Embeds MISOClient.market_report_filename: advance the date one day
for publish-date kinds, then build the filename, mutating suffix, ext
and the date format when the archived form is requested. -/
def market_report_filename
    (date : Date) (report : MISOMarketReport) (is_archived : Bool) : String :=
  let suffix0 := (MARKET_REPORT_FILES_SUFFIX_EXT report).1
  let ext0 := (MARKET_REPORT_FILES_SUFFIX_EXT report).2
  let date1 := if report ∈ publish_date_reports then nextDay date else date
  let suffix1 := if is_archived then suffix0 ++ "_" ++ ext0 else suffix0
  let ext1 := if is_archived then "zip" else ext0
  let datePart := if is_archived then fmtYYYYMM date1 else fmtYYYYMMDD date1
  datePart ++ "_" ++ suffix1 ++ "." ++ ext1

/-! Spec-side filename formulas, written from the specification's words
(section 4.2 / 6): unarchived {date:YYYYMMDD}_{suffix}.{ext}, archived
{date:YYYYMM}_{suffix}_{ext}.zip, with the publish-date flag carried as
data in the 5-row lookup table.  These are compared against the
source-derived market_report_filename. -/

/-- Modelled from the spec: the suffix column of the 5-row lookup table. -/
def specSuffix : MISOMarketReport → String
  | .FORECAST_AND_LOAD => "df_al"
  | .GENERATION_FUEL_MIX => "sr_gfm"
  | .DAYAHEAD_EXANTE_LMP => "da_exante_lmp"
  | .DAYAHEAD_EXPOST_LMP => "da_expost_lmp"
  | .REALTIME_EXANTE_LMP => "5min_exante_lmp"

/-- Modelled from the spec: the extension column of the 5-row lookup table. -/
def specExt : MISOMarketReport → String
  | .FORECAST_AND_LOAD => "xls"
  | .GENERATION_FUEL_MIX => "xlsx"
  | .DAYAHEAD_EXANTE_LMP => "csv"
  | .DAYAHEAD_EXPOST_LMP => "csv"
  | .REALTIME_EXANTE_LMP => "xlsx"

/-- Modelled from the spec: the publish-date boolean column of the
5-row lookup table (file named by the day after the market date). -/
def specUsesPublishDate : MISOMarketReport → Bool
  | .FORECAST_AND_LOAD => true
  | .GENERATION_FUEL_MIX => true
  | .DAYAHEAD_EXANTE_LMP => false
  | .DAYAHEAD_EXPOST_LMP => false
  | .REALTIME_EXANTE_LMP => true

/-- Modelled from the spec: the date used in the filename, advanced by
one day exactly when the kind uses publish-date naming. -/
def specNamingDate (d : Date) (r : MISOMarketReport) : Date :=
  if specUsesPublishDate r then nextDay d else d

/-- Modelled from the spec: unarchived filename {date:YYYYMMDD}_{suffix}.{ext}. -/
def specUnarchivedFilename (d : Date) (r : MISOMarketReport) : String :=
  fmtYYYYMMDD (specNamingDate d r) ++ "_" ++ specSuffix r ++ "." ++ specExt r

/-- Modelled from the spec: archived filename {date:YYYYMM}_{suffix}_{ext}.zip. -/
def specArchivedFilename (d : Date) (r : MISOMarketReport) : String :=
  fmtYYYYMM (specNamingDate d r) ++ "_" ++ specSuffix r ++ "_" ++ specExt r ++ ".zip"

/-- The five report kinds, enumerated. -/
def allReports : List MISOMarketReport :=
  [.FORECAST_AND_LOAD, .GENERATION_FUEL_MIX, .DAYAHEAD_EXANTE_LMP,
   .DAYAHEAD_EXPOST_LMP, .REALTIME_EXANTE_LMP]

/-! ## Transport errors and the retry policy (base.py) -/

/-- Transport-level outcomes of a single HTTP attempt, mirroring the
aiohttp exception classes the source distinguishes: ClientResponseError
(an HTTP error status), ClientConnectionError (a connection-level
failure, not a subclass of ClientResponseError and vice versa), and any
other exception. -/
inductive AioError where
  | clientResponseError (status : Nat)
  | clientConnectionError
  | otherError
deriving DecidableEq, Repr

/-- Embeds is_retryable_error (base.py).  The source returns False early
for an HTTP 404 ClientResponseError, then returns True iff the error is
an instance of a class in the retryable_errors list, which holds only
ClientConnectionError; every other error, including any non-404
ClientResponseError (which is not a ClientConnectionError), reaches the
final return False. -/
def is_retryable_error : AioError → Bool
  | .clientResponseError _ => false
  | .clientConnectionError => true
  | .otherError => false

/-- Result of running the tenacity-decorated fetch: the final outcome,
how many attempts were consumed, and the wait inserted before each
retry (in seconds). -/
structure RetryTrace (α : Type) where
  result : Except AioError α
  attemptsMade : Nat
  waits : List Nat
deriving Repr

/-- One step of the tenacity retry loop around BaseClient fetch:
attempt number attemptNo runs with outcome given by the oracle; on
success the value is returned, on a non-retryable error the error is
reraised at once (reraise=True), on a retryable error the loop waits the
fixed interval and retries while attempts remain, reraising the last
error when the attempt budget is exhausted. -/
def retryGo (outcome : Nat → Except AioError α) (wait : Nat) :
    Nat → Nat → List Nat → RetryTrace α
  | attemptNo, 0, ws =>
    match outcome attemptNo with
    | .ok a => ⟨.ok a, attemptNo, ws.reverse⟩
    | .error e => ⟨.error e, attemptNo, ws.reverse⟩
  | attemptNo, 1, ws =>
    match outcome attemptNo with
    | .ok a => ⟨.ok a, attemptNo, ws.reverse⟩
    | .error e => ⟨.error e, attemptNo, ws.reverse⟩
  | attemptNo, r + 2, ws =>
    match outcome attemptNo with
    | .ok a => ⟨.ok a, attemptNo, ws.reverse⟩
    | .error e =>
      if is_retryable_error e then
        retryGo outcome wait (attemptNo + 1) (r + 1) (wait :: ws)
      else ⟨.error e, attemptNo, ws.reverse⟩

/-- Embeds the tenacity.retry decorator on BaseClient._fetch:
wait_fixed(10), stop_after_attempt(10), retry_if_exception
(is_retryable_error), reraise=True. -/
def tenacity_fetch (outcome : Nat → Except AioError α) : RetryTrace α :=
  retryGo outcome 10 1 10 []

/-! ## URLs and resolution (base.py check_url_exists, miso.py
market_report_url) -/

/-- Embeds BaseClient.urljoin applied to the marketreports base URL and
a filename: the Python code produces the string base ++ "/" ++ filename.
Because the orchestrator later recovers exactly the final path component
with rsplit("/", 1)[-1], a URL is modelled as the pair of its base and
its final component; urljoin is the pairing and the rsplit projection is
Url.filename. -/
structure Url where
  base : String
  filename : String
deriving DecidableEq, Repr

/-- Embeds BaseClient.urljoin (see Url). -/
def urljoin (base filename : String) : Url := ⟨base, filename⟩

/-- The base URL of MISO market report files (miso.py market_report_url). -/
def BASE_URL : String := "https://docs.misoenergy.org/marketreports"

/-- A transport oracle: the post-retry outcome of fetching each URL, as
either the response body or the surfaced error. -/
abbrev Fetch (α : Type) := Url → Except AioError α

/-- Embeds BaseClient.check_url_exists: perform the fetch; a
ClientResponseError with status 404 yields False, any other
ClientResponseError is re-raised, success yields True, and any other
exception propagates uncaught. -/
def check_url_exists (fetch : Fetch α) (url : Url) : Except AioError Bool :=
  match fetch url with
  | .error (.clientResponseError status) =>
      if status == 404 then .ok false
      else .error (.clientResponseError status)
  | .error e => .error e
  | .ok _ => .ok true

/-- Embeds MISOClient.market_report_url: probe the non-archived URL
first and return it if it exists, else probe the archived URL and
return it if it exists, else return None. -/
def market_report_url (fetch : Fetch α) (date : Date)
    (report : MISOMarketReport) : Except AioError (Option Url) :=
  match check_url_exists fetch
      (urljoin BASE_URL (market_report_filename date report false)) with
  | .error e => .error e
  | .ok true =>
    .ok (some (urljoin BASE_URL (market_report_filename date report false)))
  | .ok false =>
    match check_url_exists fetch
        (urljoin BASE_URL (market_report_filename date report true)) with
    | .error e => .error e
    | .ok true =>
      .ok (some (urljoin BASE_URL (market_report_filename date report true)))
    | .ok false => .ok none

/-! ## Canonical tables

A row of a canonical table is the tuple of its column values in column
order, each value encoded as an integer: timestamps as minute counts on
the axis of dateToMin, node names as category ranks, metric values as
scaled decimals.  A DataFrame is the list of its rows. -/

/-- A canonical-table row (see section comment). -/
abbrev Row := List Int

/-- A parsed table: its rows in order. -/
abbrev DataFrame := List Row

/-- Lexicographic comparison of two rows on the full column tuple; this
is the order pandas sort_values(by=list-of-all-columns, ascending=True)
sorts rows by. -/
def lexLe : List Int → List Int → Bool
  | [], _ => true
  | _ :: _, [] => false
  | x :: xs, y :: ys =>
    if x < y then true
    else if x = y then lexLe xs ys
    else false

/-- Comparison of two rows on the first column only; the order pandas
sort_values(by="start", ascending=True) sorts rows by. -/
def startLe (r s : Row) : Bool :=
  decide (r.headD 0 ≤ s.headD 0)

/-- First column of a row: the interval-start timestamp. -/
def rowStart (r : Row) : Int := r.headD 0

/-- Split a character list at every occurrence of the separator,
accumulating the current piece in reverse. -/
def splitCharAux (c : Char) : List Char → List Char → List String
  | [], acc => [String.mk acc.reverse]
  | x :: xs, acc =>
    if x = c then String.mk acc.reverse :: splitCharAux c xs []
    else splitCharAux c xs (x :: acc)

/-- Embeds s.split(sep) for a one-character separator (the only
separators the source splits on are "/", ".", " ", "-" and ":"). -/
def splitChar (c : Char) (s : String) : List String :=
  splitCharAux c s.data []

/-- Embeds s.rsplit(sep, maxsplit=1)[-1]: the part after the last
occurrence of the separator, or the whole string when the separator is
absent. -/
def lastSplitPart (c : Char) (s : String) : String :=
  (splitChar c s).getLastD s

/-- Embeds s[:-n]: all but the last n characters. -/
def dropRightChars (s : String) (n : Nat) : String :=
  String.mk (s.data.take (s.data.length - n))

/-- Value of a decimal digit character, when it is one. -/
def digitVal (ch : Char) : Option Nat :=
  if '0' ≤ ch ∧ ch ≤ '9' then some (ch.toNat - '0'.toNat) else none

/-- Parse a run of decimal digits, most significant first. -/
def parseDigits : List Char → Nat → Option Nat
  | [], acc => some acc
  | ch :: cs, acc =>
    match digitVal ch with
    | some d => parseDigits cs (acc * 10 + d)
    | none => none

/-- Embeds int(s) for a non-negative decimal literal. -/
def pyToNat (s : String) : Option Nat :=
  match s.data with
  | [] => none
  | cs => parseDigits cs 0

/-- Embeds int(s) for a decimal literal with an optional leading minus. -/
def pyToInt (s : String) : Option Int :=
  match s.data with
  | [] => none
  | ch :: cs =>
    if ch = '-' then
      match cs with
      | [] => none
      | _ => (parseDigits cs 0).map (fun n => -(n : Int))
    else (parseDigits (ch :: cs) 0).map (fun n => (n : Int))

/-! ## Batch orchestrator (miso.py retrieve_and_parse_market_report_files
and get_all_market_report_urls) -/

/-- Exceptions the batch orchestrator can raise. -/
inductive OrchError where
  | transport (e : AioError)
  | badZipFile
  | assertionFailed
  | emptyConcat
deriving DecidableEq, Repr

/-- Non-fatal warnings emitted by the batch retrieval. -/
inductive MWarning where
  | missingDates (dates : List Date)
  | unretrievedFiles (files : List String)
deriving DecidableEq, Repr

/-- Insertion into a Python dict modelled as an insertion-ordered
association list: a repeated key overwrites its value in place, a new
key is appended. -/
def dictInsert (k : Date) (v : Url) (m : List (Date × Url)) : List (Date × Url) :=
  if m.any (fun p => decide (p.1 = k)) then
    m.map (fun p => if p.1 = k then (k, v) else p)
  else m ++ [(k, v)]

/-- Embeds MISOClient.get_all_market_report_urls: resolve a URL per date
(the gather propagating any probe error), build the date-to-URL dict
skipping dates that resolved to None, and collect the missing dates
that the source turns into a warning. -/
def get_all_market_report_urls (fetch : Fetch α) (dates : List Date)
    (report : MISOMarketReport) :
    Except AioError (List (Date × Url) × List Date) :=
  match dates.mapM (fun d => market_report_url fetch d report) with
  | .error e => .error e
  | .ok urls =>
    let pairs := dates.zip urls
    ( .ok
      ( pairs.foldl (fun m p =>
          match p.2 with
          | none => m
          | some u => dictInsert p.1 u m) [],
        (pairs.filter (fun p => p.2.isNone)).map (fun p => p.1)))

/-- Embeds the set comprehension building unretrieved_files: the
unarchived-form filename of every date holding a resolved URL, as a set
(duplicates collapsed), even for dates whose resolved URL is the
archived form. -/
def expected_files (urls_dict : List (Date × Url))
    (report : MISOMarketReport) : List String :=
  (urls_dict.map (fun p => market_report_filename p.1 report false)).dedup

/-- State of the orchestrator's as-completed processing loop: the parsed
tables in completion order, the remaining expected-filename set
(unretrieved_files), the trace of parse events (filename and the raw
bytes handed to parse_fn), and the first raised exception, after which
the loop stops. -/
structure PState (α : Type) where
  dfs : List DataFrame
  unret : List String
  trace : List (String × α)
  err : Option OrchError
deriving Repr

/-- Embeds the inner loop over zfile.filelist: a member whose name is in
the expected set is read, parsed, appended, and removed from the set;
any other member is skipped. -/
def processMember (parse_fn : α → DataFrame) (st : PState α)
    (m : String × α) : PState α :=
  if m.1 ∈ st.unret then
    { st with
        dfs := st.dfs ++ [parse_fn m.2],
        unret := st.unret.erase m.1,
        trace := st.trace ++ [m] }
  else st

/-- Embeds one iteration of the as-completed loop of
retrieve_and_parse_market_report_files: await the fetch (its error
aborts the batch), recover the filename from the URL, then either
selectively extract a zip payload or parse a plain payload directly
after asserting its name is still expected. -/
def processUrl (fetch : Fetch α) (unzip : α → Option (List (String × α)))
    (parse_fn : α → DataFrame) (st : PState α) (url : Url) : PState α :=
  if st.err.isSome then st
  else
    match fetch url with
    | .error e => { st with err := some (.transport e) }
    | .ok file_data =>
      if lastSplitPart '.' url.filename == "zip" then
        match unzip file_data with
        | none => { st with err := some .badZipFile }
        | some filelist => filelist.foldl (processMember parse_fn) st
      else
        if url.filename ∈ st.unret then
          processMember parse_fn st (url.filename, file_data)
        else { st with err := some .assertionFailed }

/-- The processing-loop state after the given completion order of the
distinct URLs, starting from the expected-filename set of the resolved
URL dict. -/
def orchLoopState (fetch : Fetch α) (unzip : α → Option (List (String × α)))
    (parse_fn : α → DataFrame) (urls_dict : List (Date × Url))
    (report : MISOMarketReport) (order : List Url) : PState α :=
  order.foldl (processUrl fetch unzip parse_fn)
    ⟨[], expected_files urls_dict report, [], none⟩

/-- The expected-filename set a batch retrieval starts from (empty when
URL resolution itself raised). -/
def orchExpected (fetch : Fetch α) (dates : List Date)
    (report : MISOMarketReport) : List String :=
  match get_all_market_report_urls fetch dates report with
  | .error _ => []
  | .ok (urls_dict, _) => expected_files urls_dict report

/-- The processing-loop state a batch retrieval ends with (the untouched
initial state when URL resolution itself raised, so that no parse event
occurred). -/
def orchState (fetch : Fetch α) (unzip : α → Option (List (String × α)))
    (parse_fn : α → DataFrame) (dates : List Date)
    (report : MISOMarketReport) (order : List Url) : PState α :=
  match get_all_market_report_urls fetch dates report with
  | .error _ => ⟨[], [], [], none⟩
  | .ok (urls_dict, _) =>
    orchLoopState fetch unzip parse_fn urls_dict report order

/-- Embeds MISOClient.retrieve_and_parse_market_report_files, the batch
orchestrator: resolve URLs per date (warning about unresolved dates),
process the distinct URLs in completion order, warn about expected files
never retrieved, then concatenate all parsed tables and sort rows by the
full column tuple ascending.  Returns the warnings emitted together with
the final table or the first raised exception; pd.concat of zero tables
raises (emptyConcat). -/
def retrieve_and_parse_market_report_files (fetch : Fetch α)
    (unzip : α → Option (List (String × α))) (parse_fn : α → DataFrame)
    (dates : List Date) (report : MISOMarketReport) (order : List Url) :
    List MWarning × Except OrchError DataFrame :=
  match get_all_market_report_urls fetch dates report with
  | .error e => ([], .error (.transport e))
  | .ok (urls_dict, missing_dates) =>
    let warns1 :=
      if missing_dates.isEmpty then [] else [MWarning.missingDates missing_dates]
    let st := orchLoopState fetch unzip parse_fn urls_dict report order
    match st.err with
    | some e => (warns1, .error e)
    | none =>
      let warns2 :=
        if st.unret.isEmpty then [] else [MWarning.unretrievedFiles st.unret]
      if st.dfs.isEmpty then (warns1 ++ warns2, .error .emptyConcat)
      else (warns1 ++ warns2, .ok (st.dfs.flatten.mergeSort lexLe))

/-- The ways a byte string can reach parse_fn under a given filename in
a batch retrieval: fetched directly from a URL whose final component is
that filename, or extracted as a member of that name from a fetched zip
payload. -/
def servedBytes (fetch : Fetch α) (unzip : α → Option (List (String × α)))
    (f : String) (b : α) : Prop :=
  (∃ u : Url, fetch u = .ok b ∧ u.filename = f) ∨
  (∃ (u : Url) (z : α) (members : List (String × α)),
    fetch u = .ok z ∧ unzip z = some members ∧ (f, b) ∈ members)

/-- The URLs probed while resolving one date: the unarchived candidate
always, and the archived candidate only when the first probe answered
"not found" (a raised probe error stops before the second probe). -/
def market_report_url_calls (fetch : Fetch α) (date : Date)
    (report : MISOMarketReport) : List Url :=
  match check_url_exists fetch
      (urljoin BASE_URL (market_report_filename date report false)) with
  | .ok false =>
    [urljoin BASE_URL (market_report_filename date report false),
     urljoin BASE_URL (market_report_filename date report true)]
  | _ => [urljoin BASE_URL (market_report_filename date report false)]

/-- All URLs fetched during a batch retrieval: the per-date resolution
probes followed by the content fetches of the distinct resolved URLs. -/
def orchCalls (fetch : Fetch α) (dates : List Date)
    (report : MISOMarketReport) (order : List Url) : List Url :=
  (dates.map (fun d => market_report_url_calls fetch d report)).flatten ++ order

/-! ## Live-API payload parsing (miso.py parse_api_refid_datetime,
parse_load_api_data, parse_forecast_api_data) -/

/-- Exceptions raised at the facade/parser level.  The spec's
MalformedReferenceId names the condition the source raises as
ValueError("Invalid refid string."); the spec's UnsupportedModeError
names the condition the source raises as NotImplementedError. -/
inductive PyError where
  | aio (e : AioError)
  | orch (e : OrchError)
  | datesTypeError
  | notImplementedError
  | indexError
  | valueError (msg : String)
deriving DecidableEq, Repr

/-- A naive datetime as strptime returns it for the reference-id format:
calendar date plus hour and minute. -/
structure RefDateTime where
  date : Date
  hour : Int
  minute : Int
deriving DecidableEq, Repr

/-- Embeds str.split() with no arguments on space-separated text: split
on the separator and drop empty pieces. -/
def pySplit (s : String) : List String :=
  (splitChar ' ' s).filter (fun t => t != "")

/-- Month abbreviations accepted by strptime %b. -/
def MONTH_ABBREVS : List String :=
  ["Jan", "Feb", "Mar", "Apr", "May", "Jun",
   "Jul", "Aug", "Sep", "Oct", "Nov", "Dec"]

/-- Embeds dt.datetime.strptime(s, "%d-%b-%Y - Interval %H:%M"): parse
the fixed format, validating field ranges and the real calendar as the
datetime constructor does; any mismatch raises ValueError. -/
def strptimeRefid (s : String) : Except PyError RefDateTime :=
  match splitChar ' ' s with
  | [dmy, "-", "Interval", hm] =>
    (match splitChar '-' dmy, splitChar ':' hm with
     | [dStr, monStr, yStr], [hStr, minStr] =>
       (match pyToNat dStr, MONTH_ABBREVS.indexOf? monStr,
           pyToNat yStr, pyToNat hStr, pyToNat minStr with
        | some d, some monIdx, some y, some h, some mi =>
          if 1 ≤ d ∧ d ≤ daysInMonth y (monIdx + 1) ∧ h ≤ 23 ∧ mi ≤ 59 then
            .ok ⟨⟨y, monIdx + 1, d⟩, (h : Int), (mi : Int)⟩
          else .error (.valueError "time data does not match format")
        | _, _, _, _, _ =>
          .error (.valueError "time data does not match format"))
     | _, _ => .error (.valueError "time data does not match format"))
  | _ => .error (.valueError "time data does not match format")

/-- Embeds MISOClient.parse_api_refid_datetime: split the reference-id
string on whitespace; indexing the last token of an empty split raises
IndexError; a last token other than "EST" or a [1:3] slice other than
["-", "Interval"] raises ValueError("Invalid refid string."); otherwise
strptime parses everything but the trailing " EST". -/
def parse_api_refid_datetime (refid_str : String) : Except PyError RefDateTime :=
  match (pySplit refid_str).getLast? with
  | none => .error .indexError
  | some lastTok =>
    if lastTok ≠ "EST" ∨ ((pySplit refid_str).drop 1).take 2 ≠ ["-", "Interval"] then
      .error (.valueError "Invalid refid string.")
    else
      strptimeRefid (dropRightChars refid_str 4)

/-- The decoded JSON body of the gettotalload API endpoint: the
reference-id string, the 5-minute load entries (Time "HH:MM" and Value),
and the hourly forecast entries (1-based HourEnding and LoadForecast). -/
structure LoadApiPayload where
  refId : String
  fiveMinTotalLoad : List (String × Int)
  mediumTermLoadForecast : List (Int × Int)
deriving DecidableEq, Repr

/-- Embeds hour, minute = (int(t) for t in time.split(":", maxsplit=1)):
both pieces must parse as integers and there must be exactly two, else
ValueError. -/
def parseTimeHM (time : String) : Except PyError (Int × Int) :=
  match splitChar ':' time with
  | [hStr, mStr] =>
    (match pyToInt hStr, pyToInt mStr with
     | some h, some m => .ok (h, m)
     | _, _ => .error (.valueError "invalid literal for int"))
  | _ => .error (.valueError "invalid literal for int")

/-- Embeds MISOClient.parse_load_api_data: the reference-id gives the
base date (time truncated away); each 5-minute entry becomes a row
[start, start + 5, load]; rows are sorted ascending by start. -/
def parse_load_api_data (p : LoadApiPayload) : Except PyError DataFrame := do
  let refDt ← parse_api_refid_datetime p.refId
  let base := dateToMin refDt.date
  let rows ← p.fiveMinTotalLoad.mapM (fun tl => do
    let hm ← parseTimeHM tl.1
    pure [base + 60 * hm.1 + hm.2, base + 60 * hm.1 + hm.2 + 5, tl.2])
  pure (rows.mergeSort startLe)

/-- Embeds MISOClient.parse_forecast_api_data: the reference-id gives the
base date; each hourly entry's 1-based hour-ending becomes the 0-based
interval-start hour; rows [start, start + 60, forecast] sorted by start. -/
def parse_forecast_api_data (p : LoadApiPayload) : Except PyError DataFrame := do
  let refDt ← parse_api_refid_datetime p.refId
  let base := dateToMin refDt.date
  let rows := p.mediumTermLoadForecast.map (fun f =>
    [base + 60 * (f.1 - 1), base + 60 * (f.1 - 1) + 60, f.2])
  pure (rows.mergeSort startLe)

/-! ## Client facade (miso.py get_*_data) -/

/-- Embeds the Dates request type (types.py): "latest", "today", or a
list of datetimes (HistoryRange). -/
inductive DatesSpec where
  | latest
  | today
  | history (dates : List Date)
deriving DecidableEq, Repr

/-- Embeds the runtime guard all(isinstance(date, dt.datetime) for date
in dates): in the typed model every element is a datetime, so the
per-element test is constantly true; on an empty list the guard is
vacuously true, which is what admits an empty HistoryRange. -/
def all_dates_are_datetimes (ds : List Date) : Bool :=
  ds.all (fun _ => true)

/-- Result of a facade call: the URLs fetched during the call, the
warnings emitted, and the outcome. -/
structure FacadeResult where
  calls : List Url
  warnings : List MWarning
  result : Except PyError DataFrame
deriving Repr

/-- The gettotalload API endpoint (load and forecast facades). -/
def GETTOTALLOAD_URL : Url :=
  ⟨"https://api.misoenergy.org/MISORTWDDataBroker",
   "DataBrokerServices.asmx?messageType=gettotalload&returnType=json"⟩

/-- The getfuelmix API endpoint. -/
def GETFUELMIX_URL : Url :=
  ⟨"https://api.misoenergy.org/MISORTWDDataBroker",
   "DataBrokerServices.asmx?messageType=getfuelmix&returnType=json"⟩

/-- The real-time LMP API endpoint for the current interval. -/
def RT_LMP_CURRENTINTERVAL_URL : Url :=
  ⟨"https://api.misoenergy.org/MISORTWDBIReporter",
   "Reporter.asmx?messageType=currentinterval&returnType=csv"⟩

/-- The real-time LMP API endpoint for the rolling market day. -/
def RT_LMP_ROLLINGMARKETDAY_URL : Url :=
  ⟨"https://api.misoenergy.org/MISORTWDBIReporter",
   "Reporter.asmx?messageType=rollingmarketday&returnType=csv"⟩

/-- Column projection df[[cols]] by column positions. -/
def selectCols (idxs : List Nat) (df : DataFrame) : DataFrame :=
  df.map (fun row => idxs.filterMap (fun i => row[i]?))

/-- Embeds df.iloc[-1:]: the last row as a one-row table (empty input
stays empty). -/
def lastRowOnly (df : DataFrame) : DataFrame :=
  match df.getLast? with
  | none => []
  | some r => [r]

/-- Embeds MISOClient.get_load_data: "latest"/"today" fetch the
gettotalload endpoint, decode its JSON (json_load) and parse it, keeping
only the last row for "latest"; a list of datetimes delegates to the
batch orchestrator for FORECAST_AND_LOAD and keeps the start, end and
load columns; anything else raises DatesTypeError. -/
def get_load_data (fetch : Fetch α) (unzip : α → Option (List (String × α)))
    (json_load : α → Except PyError LoadApiPayload)
    (parse_report : α → DataFrame) (order : List Url)
    (dates : DatesSpec) : FacadeResult :=
  match dates with
  | .latest | .today =>
    (match fetch GETTOTALLOAD_URL with
     | .error e => ⟨[GETTOTALLOAD_URL], [], .error (.aio e)⟩
     | .ok json_data =>
       (match json_load json_data with
        | .error e => ⟨[GETTOTALLOAD_URL], [], .error e⟩
        | .ok payload =>
          (match parse_load_api_data payload with
           | .error e => ⟨[GETTOTALLOAD_URL], [], .error e⟩
           | .ok df =>
             ⟨[GETTOTALLOAD_URL], [],
              .ok (if dates = .latest then lastRowOnly df else df)⟩)))
  | .history ds =>
    if all_dates_are_datetimes ds then
      match retrieve_and_parse_market_report_files fetch unzip parse_report
          ds .FORECAST_AND_LOAD order with
      | (warns, .error e) =>
        ⟨orchCalls fetch ds .FORECAST_AND_LOAD order, warns, .error (.orch e)⟩
      | (warns, .ok df) =>
        ⟨orchCalls fetch ds .FORECAST_AND_LOAD order, warns,
         .ok (selectCols [0, 1, 3] df)⟩
    else ⟨[], [], .error .datesTypeError⟩

/-- Embeds MISOClient.get_forecast_data: like get_load_data but parsing
the forecast series, filtering "latest" to the row whose start equals
the current hour, and keeping the start, end and forecast columns. -/
def get_forecast_data (fetch : Fetch α) (unzip : α → Option (List (String × α)))
    (json_load : α → Except PyError LoadApiPayload)
    (parse_report : α → DataFrame) (order : List Url) (current_hour : Int)
    (dates : DatesSpec) : FacadeResult :=
  match dates with
  | .latest | .today =>
    (match fetch GETTOTALLOAD_URL with
     | .error e => ⟨[GETTOTALLOAD_URL], [], .error (.aio e)⟩
     | .ok json_data =>
       (match json_load json_data with
        | .error e => ⟨[GETTOTALLOAD_URL], [], .error e⟩
        | .ok payload =>
          (match parse_forecast_api_data payload with
           | .error e => ⟨[GETTOTALLOAD_URL], [], .error e⟩
           | .ok df =>
             ⟨[GETTOTALLOAD_URL], [],
              .ok (if dates = .latest then
                     df.filter (fun r => decide (rowStart r = current_hour))
                   else df)⟩)))
  | .history ds =>
    if all_dates_are_datetimes ds then
      match retrieve_and_parse_market_report_files fetch unzip parse_report
          ds .FORECAST_AND_LOAD order with
      | (warns, .error e) =>
        ⟨orchCalls fetch ds .FORECAST_AND_LOAD order, warns, .error (.orch e)⟩
      | (warns, .ok df) =>
        ⟨orchCalls fetch ds .FORECAST_AND_LOAD order, warns,
         .ok (selectCols [0, 1, 2] df)⟩
    else ⟨[], [], .error .datesTypeError⟩

/-- Embeds MISOClient.get_fuel_mix_data: "today" raises
NotImplementedError before anything else happens (the API has no
full-current-day fuel-mix source), so no URL is fetched; "latest"
fetches the getfuelmix endpoint and parses it (parse_api being the
embedded parse_fuel_mix_api_data composed with JSON decoding); a list
of datetimes delegates to the batch orchestrator for
GENERATION_FUEL_MIX. -/
def get_fuel_mix_data (fetch : Fetch α) (unzip : α → Option (List (String × α)))
    (parse_api : α → Except PyError DataFrame)
    (parse_report : α → DataFrame) (order : List Url)
    (dates : DatesSpec) : FacadeResult :=
  match dates with
  | .today => ⟨[], [], .error .notImplementedError⟩
  | .latest =>
    (match fetch GETFUELMIX_URL with
     | .error e => ⟨[GETFUELMIX_URL], [], .error (.aio e)⟩
     | .ok json_data =>
       (match parse_api json_data with
        | .error e => ⟨[GETFUELMIX_URL], [], .error e⟩
        | .ok df => ⟨[GETFUELMIX_URL], [], .ok df⟩))
  | .history ds =>
    if all_dates_are_datetimes ds then
      match retrieve_and_parse_market_report_files fetch unzip parse_report
          ds .GENERATION_FUEL_MIX order with
      | (warns, .error e) =>
        ⟨orchCalls fetch ds .GENERATION_FUEL_MIX order, warns, .error (.orch e)⟩
      | (warns, .ok df) =>
        ⟨orchCalls fetch ds .GENERATION_FUEL_MIX order, warns, .ok df⟩
    else ⟨[], [], .error .datesTypeError⟩

/-- Embeds MISOClient.get_realtime_lmp_data: "latest"/"today" fetch the
current-interval or rolling-market-day endpoint and parse the CSV
(parse_api being the embedded parse_realtime_expost_lmp_api_data); a
list of datetimes delegates to the batch orchestrator for
REALTIME_EXANTE_LMP. -/
def get_realtime_lmp_data (fetch : Fetch α)
    (unzip : α → Option (List (String × α)))
    (parse_api : α → Except PyError DataFrame)
    (parse_report : α → DataFrame) (order : List Url)
    (dates : DatesSpec) : FacadeResult :=
  match dates with
  | .latest | .today =>
    (match fetch (if dates = .latest then RT_LMP_CURRENTINTERVAL_URL
                  else RT_LMP_ROLLINGMARKETDAY_URL) with
     | .error e =>
       ⟨[if dates = .latest then RT_LMP_CURRENTINTERVAL_URL
         else RT_LMP_ROLLINGMARKETDAY_URL], [], .error (.aio e)⟩
     | .ok csv_data =>
       (match parse_api csv_data with
        | .error e =>
          ⟨[if dates = .latest then RT_LMP_CURRENTINTERVAL_URL
            else RT_LMP_ROLLINGMARKETDAY_URL], [], .error e⟩
        | .ok df =>
          ⟨[if dates = .latest then RT_LMP_CURRENTINTERVAL_URL
            else RT_LMP_ROLLINGMARKETDAY_URL], [], .ok df⟩))
  | .history ds =>
    if all_dates_are_datetimes ds then
      match retrieve_and_parse_market_report_files fetch unzip parse_report
          ds .REALTIME_EXANTE_LMP order with
      | (warns, .error e) =>
        ⟨orchCalls fetch ds .REALTIME_EXANTE_LMP order, warns, .error (.orch e)⟩
      | (warns, .ok df) =>
        ⟨orchCalls fetch ds .REALTIME_EXANTE_LMP order, warns, .ok df⟩
    else ⟨[], [], .error .datesTypeError⟩

/-- Embeds MISOClient.get_dayahead_lmp_data: all data comes from market
report files; "latest"/"today" run the batch retrieval over the single
date now() (passed here as today), "latest" then filtering to the rows
of the current hour; a list of datetimes delegates to the batch
orchestrator for the selected price methodology, defaulting to the
newer ex-post method. -/
def get_dayahead_lmp_data (fetch : Fetch α)
    (unzip : α → Option (List (String × α)))
    (parse_report : α → DataFrame) (order : List Url)
    (today : Date) (current_hour : Int) (dates : DatesSpec)
    (price_type : MISOMarketReport := .DAYAHEAD_EXPOST_LMP) : FacadeResult :=
  match dates with
  | .latest | .today =>
    (match retrieve_and_parse_market_report_files fetch unzip parse_report
        [today] price_type order with
     | (warns, .error e) =>
       ⟨orchCalls fetch [today] price_type order, warns, .error (.orch e)⟩
     | (warns, .ok df) =>
       ⟨orchCalls fetch [today] price_type order, warns,
        .ok (if dates = .latest then
               df.filter (fun r => decide (rowStart r = current_hour))
             else df)⟩)
  | .history ds =>
    if all_dates_are_datetimes ds then
      match retrieve_and_parse_market_report_files fetch unzip parse_report
          ds price_type order with
      | (warns, .error e) =>
        ⟨orchCalls fetch ds price_type order, warns, .error (.orch e)⟩
      | (warns, .ok df) =>
        ⟨orchCalls fetch ds price_type order, warns, .ok df⟩
    else ⟨[], [], .error .datesTypeError⟩

/-! ## Client construction and resource lifecycle (base.py
BaseClient.__init__) -/

/-- The observable effects of BaseClient.__init__ in order: creating the
shared aiohttp session (only when none is injected) and registering the
session-closing cleanup with atexit, a process-exit hook. -/
inductive InitEffect where
  | createSession
  | registerAtexitHook
deriving DecidableEq, Repr

/-- Embeds the effect sequence of BaseClient.__init__: the session is
created when none is provided, and the line
atexit.register(asyncio.run, self.session.close()) always registers the
pool cleanup with the interpreter's exit hooks. -/
def baseClientInit (sessionProvided : Bool) : List InitEffect :=
  (if sessionProvided then [] else [InitEffect.createSession])
    ++ [InitEffect.registerAtexitHook]

/-- The public lifecycle operations BaseClient and MISOClient expose
besides construction: the source defines no close, aclose, shutdown or
context-manager method, so the list of release operations is empty. -/
def clientReleaseOperations : List String := []

/-- The invariant of the orchestrator's processing loop with respect to
the initial expected-filename set: the remaining set stays duplicate-free
inside the initial set, every parse event names an expected file, no
expected filename is parsed twice, and parsed names have left the
remaining set. -/
def StInv (expected : List String) (st : PState α) : Prop :=
  st.unret.Nodup ∧
  (∀ f ∈ st.unret, f ∈ expected) ∧
  (∀ fb ∈ st.trace, fb.1 ∈ expected) ∧
  (st.trace.map Prod.fst).Nodup ∧
  (∀ fb ∈ st.trace, fb.1 ∉ st.unret)

/-- Sorted-by-(start, node) order between rows: strictly earlier start,
or equal start and node category rank no larger (node being the third
column when present). -/
def startNodeLe (a b : Row) : Prop :=
  rowStart a < rowStart b ∨
    (rowStart a = rowStart b ∧ a.getD 2 0 ≤ b.getD 2 0)

/-- Midnight of the earliest requested date: the lower end of the
requested date span. -/
def spanLo (dates : List Date) : Int :=
  match dates.map dateToMin with
  | [] => 0
  | x :: xs => xs.foldl min x

/-- End of the day of the latest requested date: the upper end of the
requested date span. -/
def spanHi (dates : List Date) : Int :=
  (match dates.map dateToMin with
   | [] => 0
   | x :: xs => xs.foldl max x) + 1440

/-! ## Concrete oracles used by witnesses -/

/-- A transport oracle whose every attempt fails with HTTP 404. -/
def outcome404 : Nat → Except AioError Nat :=
  fun _ => .error (.clientResponseError 404)

/-- A transport oracle under which every URL exists (fetch succeeds). -/
def fetchAllExist : Fetch Nat := fun _ => .ok 0

/-- A transport oracle under which every URL is absent (HTTP 404), so
every requested date resolves to no URL under either candidate name. -/
def fetchNone : Fetch Nat :=
  fun _ => .error (.clientResponseError 404)

/-- The reference-id string of the C8 witness: Interval marker present
but trailing EST token missing. -/
def wRefidNoEST : String := "20-Apr-2024 - Interval 13:05"

/-- A live-API payload embedding the EST-less reference-id string. -/
def wPayloadNoEST : LoadApiPayload := ⟨wRefidNoEST, [], []⟩

/-- First requested date of the batch witness scenario. -/
def wDate1 : Date := ⟨2024, 1, 15⟩

/-- Second requested date of the batch witness scenario; its report is
absent under both candidate names. -/
def wDate2 : Date := ⟨2024, 1, 16⟩

/-- The resolved unarchived URL of wDate1's forecast-and-load report. -/
def wUrl1 : Url :=
  urljoin BASE_URL (market_report_filename wDate1 .FORECAST_AND_LOAD false)

/-- A transport oracle under which exactly wUrl1 exists. -/
def fetchPartial : Fetch Nat :=
  fun u => if u = wUrl1 then .ok 1 else .error (.clientResponseError 404)

/-- A payload oracle with no zip payloads. -/
def unzipNone : Nat → Option (List (String × Nat)) := fun _ => none

/-- A parse oracle returning one 5-minute row lying inside wDate1's
market day (whose midnight is minute 28421280 on the dateToMin axis). -/
def parseConst : Nat → DataFrame := fun _ => [[28421280, 28421285, 100]]

/-- C6: for every date and report kind, the unarchived candidate filename
equals the spec formula YYYYMMDD_suffix.ext and the archived candidate
equals YYYYMM_suffix_ext.zip, suffix and ext drawn from the 5-entry
lookup table, with the date advanced one day for precisely the 3 of 5
kinds using publish-date naming. -/
theorem C6_market_report_filename_formula
    (d : Date) (r : MISOMarketReport) :
    market_report_filename d r false = specUnarchivedFilename d r ∧
    market_report_filename d r true = specArchivedFilename d r ∧
    (decide (r ∈ publish_date_reports) = specUsesPublishDate r) ∧
    (allReports.filter specUsesPublishDate).length = 3 ∧
    allReports.length = 5 := by
  cases r <;>
    simp [market_report_filename, specUnarchivedFilename, specArchivedFilename,
      specNamingDate, specSuffix, specExt, specUsesPublishDate,
      MARKET_REPORT_FILES_SUFFIX_EXT, publish_date_reports, allReports,
      String.append_assoc]

/-- Behaviour of the retry loop with at least one attempt remaining:
attempts advance monotonically and stay within budget, the final result
is exactly the outcome of the last attempt made, one fixed wait is
inserted before every retry, and an attempt is followed by another only
when its outcome was a retryable error. -/
theorem retryGo_spec {α : Type} (outcome : Nat → Except AioError α) (wait : Nat) :
    ∀ (r attemptNo : Nat) (ws : List Nat),
      attemptNo ≤ (retryGo outcome wait attemptNo (r + 1) ws).attemptsMade ∧
      (retryGo outcome wait attemptNo (r + 1) ws).attemptsMade ≤ attemptNo + r ∧
      (retryGo outcome wait attemptNo (r + 1) ws).result
        = outcome (retryGo outcome wait attemptNo (r + 1) ws).attemptsMade ∧
      (retryGo outcome wait attemptNo (r + 1) ws).waits
        = ws.reverse ++ List.replicate
            ((retryGo outcome wait attemptNo (r + 1) ws).attemptsMade - attemptNo)
            wait ∧
      (∀ i, attemptNo ≤ i →
        i < (retryGo outcome wait attemptNo (r + 1) ws).attemptsMade →
        ∃ e, outcome i = .error e ∧ is_retryable_error e = true) := by
  intro r
  induction r with
  | zero =>
    intro attemptNo ws
    cases ho : outcome attemptNo with
    | ok a =>
      have ht : retryGo outcome wait attemptNo 1 ws
          = ⟨.ok a, attemptNo, ws.reverse⟩ := by
        simp [retryGo, ho]
      rw [ht]
      refine ⟨le_refl _, Nat.le_add_right _ _, by simp [ho], by simp, ?_⟩
      intro i h1 h2
      simp at h2
      omega
    | error e =>
      have ht : retryGo outcome wait attemptNo 1 ws
          = ⟨.error e, attemptNo, ws.reverse⟩ := by
        simp [retryGo, ho]
      rw [ht]
      refine ⟨le_refl _, Nat.le_add_right _ _, by simp [ho], by simp, ?_⟩
      intro i h1 h2
      simp at h2
      omega
  | succ r ih =>
    intro attemptNo ws
    cases ho : outcome attemptNo with
    | ok a =>
      have ht : retryGo outcome wait attemptNo (r + 2) ws
          = ⟨.ok a, attemptNo, ws.reverse⟩ := by
        simp [retryGo, ho]
      rw [ht]
      refine ⟨le_refl _, Nat.le_add_right _ _, by simp [ho], by simp, ?_⟩
      intro i h1 h2
      simp at h2
      omega
    | error e =>
      by_cases hr : is_retryable_error e
      · have ht : retryGo outcome wait attemptNo (r + 2) ws
            = retryGo outcome wait (attemptNo + 1) (r + 1) (wait :: ws) := by
          simp [retryGo, ho, hr]
        obtain ⟨ih1, ih2, ih3, ih4, ih5⟩ := ih (attemptNo + 1) (wait :: ws)
        rw [ht]
        refine ⟨by omega, by omega, ih3, ?_, ?_⟩
        · rw [ih4]
          have hk : (retryGo outcome wait (attemptNo + 1) (r + 1)
              (wait :: ws)).attemptsMade - attemptNo
              = ((retryGo outcome wait (attemptNo + 1) (r + 1)
                  (wait :: ws)).attemptsMade - (attemptNo + 1)) + 1 := by
            omega
          rw [hk, List.replicate_succ]
          simp
        · intro i hi1 hi2
          rcases Nat.eq_or_lt_of_le hi1 with heq | hlt
          · subst heq
            exact ⟨e, ho, hr⟩
          · exact ih5 i hlt hi2
      · have ht : retryGo outcome wait attemptNo (r + 2) ws
            = ⟨.error e, attemptNo, ws.reverse⟩ := by
          simp [retryGo, ho, hr]
        rw [ht]
        refine ⟨le_refl _, Nat.le_add_right _ _, by simp [ho], by simp, ?_⟩
        intro i h1 h2
        simp at h2
        omega

/-- When every attempt in the budget fails with a retryable error, the
retry loop consumes the whole budget. -/
theorem retryGo_exhaust {α : Type} (outcome : Nat → Except AioError α) (wait : Nat) :
    ∀ (r attemptNo : Nat) (ws : List Nat),
      (∀ i, attemptNo ≤ i → i ≤ attemptNo + r →
        ∃ e, outcome i = .error e ∧ is_retryable_error e = true) →
      (retryGo outcome wait attemptNo (r + 1) ws).attemptsMade = attemptNo + r := by
  intro r
  induction r with
  | zero =>
    intro attemptNo ws h
    obtain ⟨e, he, hr⟩ := h attemptNo (le_refl _) (by omega)
    simp [retryGo, he]
  | succ r ih =>
    intro attemptNo ws h
    obtain ⟨e, he, hr⟩ := h attemptNo (le_refl _) (by omega)
    have ht : retryGo outcome wait attemptNo (r + 2) ws
        = retryGo outcome wait (attemptNo + 1) (r + 1) (wait :: ws) := by
      simp [retryGo, he, hr]
    rw [ht, ih (attemptNo + 1) (wait :: ws) (fun i h1 h2 => h i (by omega) (by omega))]
    omega

/-- C5: the transport retry policy waits a fixed 10 seconds between
attempts, makes at most 10 attempts, retries only connection-level
failures (is_retryable_error accepts exactly ClientConnectionError), an
HTTP 404 response is never retried and is reraised immediately after
its first occurrence, and the error of the final attempt made is
reraised as-is, never swallowed. -/
theorem C5_retry_policy {α : Type} (outcome : Nat → Except AioError α) :
    (∀ e, is_retryable_error e = true ↔ e = AioError.clientConnectionError) ∧
    1 ≤ (tenacity_fetch outcome).attemptsMade ∧
    (tenacity_fetch outcome).attemptsMade ≤ 10 ∧
    (tenacity_fetch outcome).waits
      = List.replicate ((tenacity_fetch outcome).attemptsMade - 1) 10 ∧
    (tenacity_fetch outcome).result
      = outcome (tenacity_fetch outcome).attemptsMade ∧
    (∀ i, 1 ≤ i → i < (tenacity_fetch outcome).attemptsMade →
      ∃ e, outcome i = .error e ∧ is_retryable_error e = true) ∧
    (∀ k, 1 ≤ k → k ≤ (tenacity_fetch outcome).attemptsMade →
      outcome k = .error (.clientResponseError 404) →
      (tenacity_fetch outcome).attemptsMade = k ∧
      (tenacity_fetch outcome).result = .error (.clientResponseError 404)) ∧
    ((∀ i, 1 ≤ i → i ≤ 10 → ∃ e, outcome i = .error e ∧
        is_retryable_error e = true) →
      (tenacity_fetch outcome).attemptsMade = 10) := by
  obtain ⟨h1, h2, h3, h4, h5⟩ := retryGo_spec outcome 10 9 1 []
  have hT : tenacity_fetch outcome = retryGo outcome 10 1 (9 + 1) [] := rfl
  have e2 : 1 + 9 = 10 := rfl
  rw [e2] at h2
  rw [hT]
  refine ⟨?_, h1, h2, by simpa using h4, h3, h5, ?_, ?_⟩
  · intro e
    cases e <;> simp [is_retryable_error]
  · intro k hk1 hk2 hk404
    have hstop : (retryGo outcome 10 1 (9 + 1) []).attemptsMade = k := by
      by_contra hne
      have hlt : k < (retryGo outcome 10 1 (9 + 1) []).attemptsMade := by omega
      obtain ⟨e, he, hr⟩ := h5 k hk1 hlt
      rw [hk404] at he
      cases he
      simp [is_retryable_error] at hr
    exact ⟨hstop, by rw [h3, hstop, hk404]⟩
  · intro hall
    exact retryGo_exhaust outcome 10 9 1 []
      (fun i hi1 hi2 => hall i hi1 (by omega))

/-- Witness for C5: with every attempt returning HTTP 404, exactly one
attempt is made and the 404 is reraised. -/
theorem C5_retry_policy_witness :
    (tenacity_fetch outcome404).attemptsMade = 1 ∧
    (tenacity_fetch outcome404).result
      = .error (.clientResponseError 404) := by
  have h := C5_retry_policy outcome404
  exact h.2.2.2.2.2.2.1 1 (le_refl 1) h.2.1 rfl

/-- C2: URL resolution probes the unarchived candidate first and returns
it if it exists; otherwise it probes the archived candidate and returns
it if that exists; otherwise it returns None without raising — and in
particular the unarchived URL wins whenever both candidates exist. -/
theorem C2_url_resolution {α : Type} (fetch : Fetch α) (d : Date)
    (r : MISOMarketReport) (eU eA : Bool)
    (hU : check_url_exists fetch
      (urljoin BASE_URL (market_report_filename d r false)) = .ok eU)
    (hA : check_url_exists fetch
      (urljoin BASE_URL (market_report_filename d r true)) = .ok eA) :
    market_report_url fetch d r
      = .ok (if eU then some (urljoin BASE_URL (market_report_filename d r false))
             else if eA then some (urljoin BASE_URL (market_report_filename d r true))
             else none) ∧
    (eU = true →
      market_report_url fetch d r
        = .ok (some (urljoin BASE_URL (market_report_filename d r false)))) := by
  constructor
  · unfold market_report_url
    rw [hU]
    cases eU
    · rw [hA]
      cases eA <;> simp
    · simp
  · intro heU
    unfold market_report_url
    rw [hU, heU]

/-- Witness for C2: on a day for which both the unarchived and the
archived candidate exist, resolution returns the unarchived URL. -/
theorem C2_url_resolution_witness :
    market_report_url fetchAllExist ⟨2024, 1, 15⟩ .FORECAST_AND_LOAD
      = .ok (some (urljoin BASE_URL
          (market_report_filename ⟨2024, 1, 15⟩ .FORECAST_AND_LOAD false))) := by
  exact (C2_url_resolution fetchAllExist ⟨2024, 1, 15⟩ .FORECAST_AND_LOAD
    true true rfl rfl).2 rfl


/-- A zip-member step preserves the processing-loop invariant. -/
theorem stInv_processMember {α : Type} (parse_fn : α → DataFrame)
    (E : List String) (st : PState α) (m : String × α)
    (h : StInv E st) : StInv E (processMember parse_fn st m) := by
  obtain ⟨h1, h2, h3, h4, h5⟩ := h
  unfold processMember
  by_cases hm : m.1 ∈ st.unret
  · rw [if_pos hm]
    refine ⟨h1.erase _, ?_, ?_, ?_, ?_⟩
    · intro f hf
      exact h2 f (List.mem_of_mem_erase hf)
    · intro fb hfb
      rcases List.mem_append.mp hfb with hin | hin
      · exact h3 fb hin
      · rw [List.mem_singleton.mp hin]
        exact h2 m.1 hm
    · have hnotin : m.1 ∉ st.trace.map Prod.fst := by
        intro hcontra
        obtain ⟨fb, hfb, hfst⟩ := List.mem_map.mp hcontra
        exact h5 fb hfb (hfst ▸ hm)
      simp only [List.map_append, List.map_cons, List.map_nil]
      rw [List.nodup_append]
      exact ⟨h4, List.nodup_singleton _, by
        intro a ha hb
        rw [List.mem_singleton.mp hb] at ha
        exact hnotin ha⟩
    · intro fb hfb
      rcases List.mem_append.mp hfb with hin | hin
      · intro hcontra
        exact h5 fb hin (List.mem_of_mem_erase hcontra)
      · rw [List.mem_singleton.mp hin]
        intro hcontra
        exact ((h1.mem_erase_iff.mp hcontra).1) rfl
  · rw [if_neg hm]
    exact ⟨h1, h2, h3, h4, h5⟩

/-- The zip-member fold preserves the processing-loop invariant. -/
theorem stInv_foldl_members {α : Type} (parse_fn : α → DataFrame)
    (E : List String) :
    ∀ (ms : List (String × α)) (st : PState α), StInv E st →
      StInv E (ms.foldl (processMember parse_fn) st) := by
  intro ms
  induction ms with
  | nil => intro st h; exact h
  | cons m ms ih =>
    intro st h
    exact ih _ (stInv_processMember parse_fn E st m h)

/-- A whole-URL step preserves the processing-loop invariant. -/
theorem stInv_processUrl {α : Type} (fetch : Fetch α)
    (unzip : α → Option (List (String × α))) (parse_fn : α → DataFrame)
    (E : List String) (st : PState α) (url : Url)
    (h : StInv E st) : StInv E (processUrl fetch unzip parse_fn st url) := by
  unfold processUrl
  split
  · exact h
  · cases hf : fetch url with
    | error e => exact h
    | ok file_data =>
      simp only
      split
      · cases hz : unzip file_data with
        | none => exact h
        | some filelist => exact stInv_foldl_members parse_fn E filelist st h
      · split
        · exact stInv_processMember parse_fn E st _ h
        · exact h

/-- The completion-order fold preserves the processing-loop invariant. -/
theorem stInv_foldl_urls {α : Type} (fetch : Fetch α)
    (unzip : α → Option (List (String × α))) (parse_fn : α → DataFrame)
    (E : List String) :
    ∀ (order : List Url) (st : PState α), StInv E st →
      StInv E (order.foldl (processUrl fetch unzip parse_fn) st) := by
  intro order
  induction order with
  | nil => intro st h; exact h
  | cons u us ih =>
    intro st h
    exact ih _ (stInv_processUrl fetch unzip parse_fn E st u h)

/-- Keys produced by a dict insertion: the inserted key or an existing key. -/
theorem dictInsert_key_mem (q : Date × Url) (k : Date) (v : Url)
    (m : List (Date × Url)) (h : q ∈ dictInsert k v m) :
    q.1 = k ∨ q.1 ∈ m.map Prod.fst := by
  unfold dictInsert at h
  split at h
  · obtain ⟨p, hp, hq⟩ := List.mem_map.mp h
    by_cases hpk : p.1 = k
    · rw [if_pos hpk] at hq
      left
      rw [← hq]
    · rw [if_neg hpk] at hq
      right
      rw [← hq]
      exact List.mem_map.mpr ⟨p, hp, rfl⟩
  · rcases List.mem_append.mp h with hin | hin
    · right
      exact List.mem_map.mpr ⟨q, hin, rfl⟩
    · left
      rw [List.mem_singleton.mp hin]

/-- Keys of the urls_dict fold come from the zipped date-URL pairs or
the accumulator. -/
theorem buildDict_keys :
    ∀ (pairs : List (Date × Option Url)) (m : List (Date × Url))
      (q : Date × Url),
      q ∈ pairs.foldl (fun m p =>
        match p.2 with
        | none => m
        | some u => dictInsert p.1 u m) m →
      q.1 ∈ m.map Prod.fst ∨ q.1 ∈ pairs.map Prod.fst := by
  intro pairs
  induction pairs with
  | nil =>
    intro m q h
    left
    exact List.mem_map.mpr ⟨q, h, rfl⟩
  | cons p ps ih =>
    intro m q h
    simp only [List.foldl_cons] at h
    rcases ih _ q h with hin | hin
    · cases hp : p.2 with
      | none =>
        rw [hp] at hin
        exact Or.elim (Or.inl hin) (fun x => Or.inl x)
          (fun x => Or.inr (List.mem_cons_of_mem _ x))
      | some u =>
        rw [hp] at hin
        obtain ⟨q', hq', hfst⟩ := List.mem_map.mp hin
        rcases dictInsert_key_mem q' p.1 u m hq' with hk | hk
        · right
          rw [← hfst, hk]
          exact List.mem_cons_self _ _
        · left
          rw [← hfst]
          exact hk
    · right
      exact List.mem_cons_of_mem _ hin

/-- Every key of the resolved urls_dict is one of the requested dates. -/
theorem urls_dict_keys_sub_dates {α : Type} (fetch : Fetch α)
    (dates : List Date) (report : MISOMarketReport)
    (ud : List (Date × Url)) (missing : List Date)
    (h : get_all_market_report_urls fetch dates report = .ok (ud, missing)) :
    ∀ q ∈ ud, q.1 ∈ dates := by
  intro q hq
  unfold get_all_market_report_urls at h
  cases hmap : dates.mapM (fun d => market_report_url fetch d report) with
  | error e =>
    rw [hmap] at h
    cases h
  | ok urls =>
    rw [hmap] at h
    simp only [Except.ok.injEq, Prod.mk.injEq] at h
    obtain ⟨hud, _⟩ := h
    rw [← hud] at hq
    rcases buildDict_keys (dates.zip urls) [] q hq with hin | hin
    · simp at hin
    · obtain ⟨pr, hpr, hfst⟩ := List.mem_map.mp hin
      rw [← hfst]
      exact (List.of_mem_zip hpr).1

/-- C1: in every batch retrieval, a directly fetched payload or an
archive member is parsed only if its filename is in the expected set of
unarchived-form filenames computed for the resolvable requested dates,
each expected filename is parsed at most once (it is removed from the
set when parsed), and consequently every parsed file is the
unarchived-form filename of some requested date — archive members for
unrequested dates are never parsed. -/
theorem C1_expected_set_guard {α : Type} (fetch : Fetch α)
    (unzip : α → Option (List (String × α))) (parse_fn : α → DataFrame)
    (dates : List Date) (report : MISOMarketReport) (order : List Url) :
    (∀ fb ∈ (orchState fetch unzip parse_fn dates report order).trace,
      fb.1 ∈ orchExpected fetch dates report) ∧
    ((orchState fetch unzip parse_fn dates report order).trace.map
      Prod.fst).Nodup ∧
    (∀ fb ∈ (orchState fetch unzip parse_fn dates report order).trace,
      ∃ d ∈ dates, fb.1 = market_report_filename d report false) := by
  unfold orchState orchExpected
  cases hres : get_all_market_report_urls fetch dates report with
  | error e => simp
  | ok udm =>
    obtain ⟨ud, missing⟩ := udm
    have hinv : StInv (expected_files ud report)
        (orchLoopState fetch unzip parse_fn ud report order) := by
      unfold orchLoopState
      apply stInv_foldl_urls
      refine ⟨List.nodup_dedup _, fun f hf => hf, ?_, ?_, ?_⟩ <;> simp
    obtain ⟨_, _, h3, h4, _⟩ := hinv
    refine ⟨h3, h4, ?_⟩
    intro fb hfb
    have hexp := h3 fb hfb
    unfold expected_files at hexp
    rw [List.mem_dedup] at hexp
    obtain ⟨p, hp, hname⟩ := List.mem_map.mp hexp
    exact ⟨p.1, urls_dict_keys_sub_dates fetch dates report ud missing hres
      p hp, hname.symm⟩

/-- Sorting a one-element list returns it unchanged (via the
permutation property of mergeSort). -/
theorem mergeSort_single {β : Type} (le : β → β → Bool) (x : β) :
    [x].mergeSort le = [x] :=
  List.perm_singleton.mp (List.mergeSort_perm [x] le)

/-- C4 counterexample: a batch where every requested date is absent
under both candidate names emits the warning naming the missing dates
but then raises the ValueError of pd.concat on zero tables
(emptyConcat) instead of returning a table — so absence alone can make
the operation raise, refuting the claim as stated at this input. -/
theorem C4_counterexample :
    retrieve_and_parse_market_report_files fetchNone unzipNone parseConst
        [wDate1, wDate2] .FORECAST_AND_LOAD []
      = ([MWarning.missingDates [wDate1, wDate2]],
         .error .emptyConcat) := rfl

/-- C4 (amended): when some requested dates resolve to no URL or some
expected filenames remain unretrieved after all fetches complete, yet no
fetch, zip or assertion exception was raised and at least one file was
retrieved and parsed, the batch retrieval still returns the table built
from what was retrieved and emits non-fatal warnings naming the missing
dates and the unretrieved files; only a batch in which nothing at all
was retrieved raises (the pd.concat ValueError exhibited by the
counterexample), after still emitting its warning. -/
theorem C4_graceful_partial {α : Type} (fetch : Fetch α)
    (unzip : α → Option (List (String × α))) (parse_fn : α → DataFrame)
    (dates : List Date) (report : MISOMarketReport) (order : List Url)
    (ud : List (Date × Url)) (missing : List Date)
    (hres : get_all_market_report_urls fetch dates report = .ok (ud, missing))
    (herr : (orchLoopState fetch unzip parse_fn ud report order).err = none)
    (hdfs : (orchLoopState fetch unzip parse_fn ud report order).dfs ≠ [])
    (habs : missing ≠ [] ∨
      (orchLoopState fetch unzip parse_fn ud report order).unret ≠ []) :
    (retrieve_and_parse_market_report_files fetch unzip parse_fn dates
        report order).2
      = .ok (((orchLoopState fetch unzip parse_fn ud report order
          ).dfs.flatten).mergeSort lexLe) ∧
    (missing ≠ [] →
      MWarning.missingDates missing ∈
        (retrieve_and_parse_market_report_files fetch unzip parse_fn dates
          report order).1) ∧
    ((orchLoopState fetch unzip parse_fn ud report order).unret ≠ [] →
      MWarning.unretrievedFiles
          (orchLoopState fetch unzip parse_fn ud report order).unret ∈
        (retrieve_and_parse_market_report_files fetch unzip parse_fn dates
          report order).1) := by
  have hdfs' : (orchLoopState fetch unzip parse_fn ud report order
      ).dfs.isEmpty = false := by
    rw [Bool.eq_false_iff]
    intro hcontra
    exact hdfs (List.isEmpty_iff.mp hcontra)
  unfold retrieve_and_parse_market_report_files
  rw [hres]
  simp only [herr, hdfs']
  refine ⟨rfl, ?_, ?_⟩
  · intro hm
    have hm' : missing.isEmpty = false := by
      rw [Bool.eq_false_iff]
      intro hcontra
      exact hm (List.isEmpty_iff.mp hcontra)
    simp [hm']
  · intro hu
    have hu' : (orchLoopState fetch unzip parse_fn ud report order
        ).unret.isEmpty = false := by
      rw [Bool.eq_false_iff]
      intro hcontra
      exact hu (List.isEmpty_iff.mp hcontra)
    simp [hu']

/-- Witness for C4: a two-day batch where the second day's report is
absent under both candidate names still returns the first day's table
and warns about the missing date. -/
theorem C4_graceful_partial_witness :
    (retrieve_and_parse_market_report_files fetchPartial unzipNone
        parseConst [wDate1, wDate2] .FORECAST_AND_LOAD [wUrl1]).2
      = .ok [[28421280, 28421285, 100]] ∧
    MWarning.missingDates [wDate2] ∈
      (retrieve_and_parse_market_report_files fetchPartial unzipNone
        parseConst [wDate1, wDate2] .FORECAST_AND_LOAD [wUrl1]).1 := by
  have hd : (orchLoopState fetchPartial unzipNone parseConst
      [(wDate1, wUrl1)] .FORECAST_AND_LOAD [wUrl1]).dfs
      = [[[28421280, 28421285, 100]]] := rfl
  have h := C4_graceful_partial fetchPartial unzipNone parseConst
    [wDate1, wDate2] .FORECAST_AND_LOAD [wUrl1] [(wDate1, wUrl1)] [wDate2]
    rfl rfl (by rw [hd]; exact List.cons_ne_nil _ _) (Or.inl (by decide))
  refine ⟨?_, h.2.1 (by decide)⟩
  rw [h.1, hd]
  rw [show ([[[28421280, 28421285, 100]]] : List DataFrame).flatten
    = [[28421280, 28421285, 100]] from rfl]
  rw [mergeSort_single]

/-- The row order lexLe is total. -/
theorem lexLe_total : ∀ a b : List Int, lexLe a b = true ∨ lexLe b a = true := by
  intro a
  induction a with
  | nil => intro b; left; rfl
  | cons x xs ih =>
    intro b
    cases b with
    | nil => right; rfl
    | cons y ys =>
      by_cases hxy : x < y
      · left; simp [lexLe, hxy]
      · by_cases heq : x = y
        · subst heq
          rcases ih ys with h | h
          · left; simp [lexLe, h]
          · right; simp [lexLe, h]
        · right
          have hyx : y < x := by omega
          simp [lexLe, hyx]

/-- The row order lexLe is transitive. -/
theorem lexLe_trans : ∀ a b c : List Int,
    lexLe a b = true → lexLe b c = true → lexLe a c = true := by
  intro a
  induction a with
  | nil => intro b c _ _; rfl
  | cons x xs ih =>
    intro b c hab hbc
    cases b with
    | nil => simp [lexLe] at hab
    | cons y ys =>
      cases c with
      | nil => simp [lexLe] at hbc
      | cons z zs =>
        simp only [lexLe] at hab hbc ⊢
        split_ifs at hab hbc ⊢ <;>
          first
            | rfl
            | omega
            | (exact ih ys zs hab hbc)
            | simp_all

/-- Comparing nonempty rows, lexLe bounds the first column. -/
theorem lexLe_head_le (x y : Int) (xs ys : List Int)
    (h : lexLe (x :: xs) (y :: ys) = true) : x ≤ y := by
  simp only [lexLe] at h
  split_ifs at h <;> first | omega | simp_all

/-- When the second column is start plus a fixed granularity and a third
column exists, lexLe implies the (start, node) order. -/
theorem lexLe_startNode (g : Int) (a b : Row)
    (ha1 : 3 ≤ a.length) (ha2 : a[1]? = some (rowStart a + g))
    (hb1 : 3 ≤ b.length) (hb2 : b[1]? = some (rowStart b + g))
    (h : lexLe a b = true) : startNodeLe a b := by
  rcases a with _ | ⟨a0, _ | ⟨a1, _ | ⟨a2, ar⟩⟩⟩ <;> simp at ha1
  rcases b with _ | ⟨b0, _ | ⟨b1, _ | ⟨b2, br⟩⟩⟩ <;> simp at hb1
  simp only [rowStart, List.headD] at ha2 hb2
  simp at ha2 hb2
  unfold startNodeLe rowStart
  simp only [List.headD]
  by_cases h1 : a0 < b0
  · exact Or.inl h1
  · have h2 : a0 = b0 := by
      by_contra hne
      simp [lexLe, h1, hne] at h
    have h12 : a1 = b1 := by omega
    subst h2
    subst h12
    right
    refine ⟨rfl, ?_⟩
    simp only [List.getD, List.get?]
    by_cases h4 : a2 ≤ b2
    · exact h4
    · exfalso
      have hlt : ¬ a2 < b2 := by omega
      have hne2 : a2 ≠ b2 := by omega
      simp [lexLe, hlt, hne2] at h

/-- Members added to the trace by the zip-member fold come from the
member list. -/
theorem trace_foldl_members {α : Type} (parse_fn : α → DataFrame) :
    ∀ (ms : List (String × α)) (st : PState α) (fb : String × α),
      fb ∈ (ms.foldl (processMember parse_fn) st).trace →
      fb ∈ st.trace ∨ fb ∈ ms := by
  intro ms
  induction ms with
  | nil => intro st fb h; left; exact h
  | cons m ms ih =>
    intro st fb h
    rcases ih (processMember parse_fn st m) fb h with hin | hin
    · unfold processMember at hin
      split at hin
      · rcases List.mem_append.mp hin with h1 | h1
        · left; exact h1
        · right
          rw [List.mem_singleton.mp h1]
          exact List.mem_cons_self _ _
      · left; exact hin
    · right; exact List.mem_cons_of_mem _ hin

/-- Every trace entry added by one URL step was served by the transport:
fetched directly under its filename or extracted from a fetched zip. -/
theorem served_processUrl {α : Type} (fetch : Fetch α)
    (unzip : α → Option (List (String × α))) (parse_fn : α → DataFrame)
    (st : PState α) (url : Url) (fb : String × α)
    (h : fb ∈ (processUrl fetch unzip parse_fn st url).trace) :
    fb ∈ st.trace ∨ servedBytes fetch unzip fb.1 fb.2 := by
  unfold processUrl at h
  split at h
  · exact Or.inl h
  · split at h
    · exact Or.inl h
    · rename_i file_data hf
      split at h
      · split at h
        · exact Or.inl h
        · rename_i filelist hu
          rcases trace_foldl_members parse_fn filelist st fb h with hin | hin
          · exact Or.inl hin
          · exact Or.inr (Or.inr ⟨url, file_data, filelist, hf, hu, hin⟩)
      · split at h
        · rename_i hm
          unfold processMember at h
          rw [if_pos hm] at h
          rcases List.mem_append.mp h with h1 | h1
          · exact Or.inl h1
          · refine Or.inr (Or.inl ?_)
            rw [List.mem_singleton.mp h1]
            exact ⟨url, hf, rfl⟩
        · exact Or.inl h

/-- Every trace entry of the whole processing loop was served by the
transport. -/
theorem served_foldl_urls {α : Type} (fetch : Fetch α)
    (unzip : α → Option (List (String × α))) (parse_fn : α → DataFrame) :
    ∀ (order : List Url) (st : PState α),
      (∀ fb ∈ st.trace, servedBytes fetch unzip fb.1 fb.2) →
      ∀ fb ∈ (order.foldl (processUrl fetch unzip parse_fn) st).trace,
        servedBytes fetch unzip fb.1 fb.2 := by
  intro order
  induction order with
  | nil => intro st h fb hfb; exact h fb hfb
  | cons u us ih =>
    intro st h fb hfb
    refine ih _ ?_ fb hfb
    intro fb' hfb'
    rcases served_processUrl fetch unzip parse_fn st u fb' hfb' with hin | hs
    · exact h fb' hin
    · exact hs

/-- A zip-member step keeps the parsed tables in lockstep with the
parse-event trace. -/
theorem dfs_processMember {α : Type} (parse_fn : α → DataFrame)
    (st : PState α) (m : String × α)
    (h : st.dfs = st.trace.map (fun fb => parse_fn fb.2)) :
    (processMember parse_fn st m).dfs
      = (processMember parse_fn st m).trace.map (fun fb => parse_fn fb.2) := by
  unfold processMember
  split
  · simp [h]
  · exact h

/-- The zip-member fold keeps tables in lockstep with the trace. -/
theorem dfs_foldl_members {α : Type} (parse_fn : α → DataFrame) :
    ∀ (ms : List (String × α)) (st : PState α),
      st.dfs = st.trace.map (fun fb => parse_fn fb.2) →
      (ms.foldl (processMember parse_fn) st).dfs
        = (ms.foldl (processMember parse_fn) st).trace.map
            (fun fb => parse_fn fb.2) := by
  intro ms
  induction ms with
  | nil => intro st h; exact h
  | cons m ms ih =>
    intro st h
    exact ih _ (dfs_processMember parse_fn st m h)

/-- A URL step keeps tables in lockstep with the trace. -/
theorem dfs_processUrl {α : Type} (fetch : Fetch α)
    (unzip : α → Option (List (String × α))) (parse_fn : α → DataFrame)
    (st : PState α) (url : Url)
    (h : st.dfs = st.trace.map (fun fb => parse_fn fb.2)) :
    (processUrl fetch unzip parse_fn st url).dfs
      = (processUrl fetch unzip parse_fn st url).trace.map
          (fun fb => parse_fn fb.2) := by
  unfold processUrl
  split
  · exact h
  · split
    · exact h
    · split
      · split
        · exact h
        · exact dfs_foldl_members parse_fn _ st h
      · split
        · exact dfs_processMember parse_fn st _ h
        · exact h

/-- The whole processing loop keeps tables in lockstep with the trace. -/
theorem dfs_foldl_urls {α : Type} (fetch : Fetch α)
    (unzip : α → Option (List (String × α))) (parse_fn : α → DataFrame) :
    ∀ (order : List Url) (st : PState α),
      st.dfs = st.trace.map (fun fb => parse_fn fb.2) →
      (order.foldl (processUrl fetch unzip parse_fn) st).dfs
        = (order.foldl (processUrl fetch unzip parse_fn) st).trace.map
            (fun fb => parse_fn fb.2) := by
  intro order
  induction order with
  | nil => intro st h; exact h
  | cons u us ih =>
    intro st h
    exact ih _ (dfs_processUrl fetch unzip parse_fn st u h)

/-- A left fold by min never exceeds its initial value. -/
theorem foldlMin_le_init : ∀ (xs : List Int) (a : Int), xs.foldl min a ≤ a := by
  intro xs
  induction xs with
  | nil => intro a; exact le_refl a
  | cons x xs ih =>
    intro a
    exact le_trans (ih (min a x)) (min_le_left _ _)

/-- A left fold by min is below every list element. -/
theorem foldlMin_le_mem :
    ∀ (xs : List Int) (a y : Int), y ∈ xs → xs.foldl min a ≤ y := by
  intro xs
  induction xs with
  | nil => intro a y h; cases h
  | cons x xs ih =>
    intro a y h
    rcases List.mem_cons.mp h with heq | hin
    · subst heq
      exact le_trans (foldlMin_le_init xs (min a y)) (min_le_right _ _)
    · exact ih _ y hin

/-- A left fold by max is at least its initial value. -/
theorem le_foldlMax_init : ∀ (xs : List Int) (a : Int), a ≤ xs.foldl max a := by
  intro xs
  induction xs with
  | nil => intro a; exact le_refl a
  | cons x xs ih =>
    intro a
    exact le_trans (le_max_left _ _) (ih (max a x))

/-- A left fold by max is above every list element. -/
theorem le_foldlMax_mem :
    ∀ (xs : List Int) (a y : Int), y ∈ xs → y ≤ xs.foldl max a := by
  intro xs
  induction xs with
  | nil => intro a y h; cases h
  | cons x xs ih =>
    intro a y h
    rcases List.mem_cons.mp h with heq | hin
    · subst heq
      exact le_trans (le_max_right _ _) (le_foldlMax_init xs (max a y))
    · exact ih _ y hin

/-- Every requested date's midnight is at or after the span's lower end. -/
theorem spanLo_le_of_mem (dates : List Date) (d : Date) (h : d ∈ dates) :
    spanLo dates ≤ dateToMin d := by
  unfold spanLo
  cases hmap : dates.map dateToMin with
  | nil =>
    exfalso
    have hmem : dateToMin d ∈ dates.map dateToMin := List.mem_map_of_mem _ h
    rw [hmap] at hmem
    cases hmem
  | cons x xs =>
    have hmem : dateToMin d ∈ x :: xs := by
      rw [← hmap]
      exact List.mem_map_of_mem _ h
    rcases List.mem_cons.mp hmem with heq | hin
    · rw [heq]
      exact foldlMin_le_init xs x
    · exact foldlMin_le_mem xs x _ hin

/-- Every requested date's end of day is at or before the span's upper
end. -/
theorem le_spanHi_of_mem (dates : List Date) (d : Date) (h : d ∈ dates) :
    dateToMin d + 1440 ≤ spanHi dates := by
  unfold spanHi
  have hle : dateToMin d ≤
      (match dates.map dateToMin with
       | [] => 0
       | x :: xs => xs.foldl max x) := by
    cases hmap : dates.map dateToMin with
    | nil =>
      exfalso
      have hmem : dateToMin d ∈ dates.map dateToMin := List.mem_map_of_mem _ h
      rw [hmap] at hmem
      cases hmem
    | cons x xs =>
      have hmem : dateToMin d ∈ x :: xs := by
        rw [← hmap]
        exact List.mem_map_of_mem _ h
      rcases List.mem_cons.mp hmem with heq | hin
      · rw [heq]
        exact le_foldlMax_init xs x
      · exact le_foldlMax_mem xs x _ hin
  omega

/-- Projecting a nonempty row onto column positions starting with 0
keeps its first column. -/
theorem rowStart_selectRow (r : Row) (hr : r ≠ []) (rest : List Nat) :
    rowStart ((0 :: rest).filterMap (fun i => r[i]?)) = rowStart r := by
  cases r with
  | nil => exact absurd rfl hr
  | cons r0 rs => simp [List.filterMap_cons, rowStart]

/-- C3: the table returned by a batch (HistoryRange) retrieval is sorted
ascending on the full column tuple, hence ascending by start, and — when
the end column is start plus the granularity and a node column exists —
ascending by (start, node); and whenever the remote serves, under each
requested date's unarchived filename, only rows lying inside that
date's market day, every returned row's start falls within the requested
date span. -/
theorem C3_sorted_within_span {α : Type} (fetch : Fetch α)
    (unzip : α → Option (List (String × α))) (parse_fn : α → DataFrame)
    (dates : List Date) (report : MISOMarketReport) (order : List Url)
    (g : Int) (rows : DataFrame)
    (hok : (retrieve_and_parse_market_report_files fetch unzip parse_fn
        dates report order).2 = .ok rows) :
    rows.Pairwise (fun a b => lexLe a b = true) ∧
    ((∀ r ∈ rows, r ≠ []) →
      rows.Pairwise (fun a b => rowStart a ≤ rowStart b)) ∧
    ((∀ r ∈ rows, 3 ≤ r.length ∧ r[1]? = some (rowStart r + g)) →
      rows.Pairwise startNodeLe) ∧
    ((∀ r ∈ rows, r ≠ []) →
      (selectCols [0, 1, 3] rows).Pairwise
        (fun a b => rowStart a ≤ rowStart b) ∧
      (selectCols [0, 1, 2] rows).Pairwise
        (fun a b => rowStart a ≤ rowStart b)) ∧
    ((∀ d ∈ dates, ∀ b : α,
        servedBytes fetch unzip (market_report_filename d report false) b →
        ∀ r ∈ parse_fn b,
          dateToMin d ≤ rowStart r ∧ rowStart r < dateToMin d + 1440) →
      ∀ r ∈ rows, spanLo dates ≤ rowStart r ∧ rowStart r < spanHi dates) := by
  unfold retrieve_and_parse_market_report_files at hok
  cases hres : get_all_market_report_urls fetch dates report with
  | error e =>
    rw [hres] at hok
    simp at hok
  | ok udm =>
    obtain ⟨ud, missing⟩ := udm
    rw [hres] at hok
    cases herr : (orchLoopState fetch unzip parse_fn ud report order).err with
    | some e =>
      simp only [herr] at hok
      simp at hok
    | none =>
      cases hdfs : (orchLoopState fetch unzip parse_fn ud report
          order).dfs.isEmpty with
      | true =>
        simp only [herr, hdfs] at hok
        simp at hok
      | false =>
        simp only [herr, hdfs, Bool.false_eq_true, if_false,
          Except.ok.injEq] at hok
        have hrows : rows = ((orchLoopState fetch unzip parse_fn ud report
            order).dfs.flatten).mergeSort lexLe := hok.symm
        have hsorted : rows.Pairwise (fun a b => lexLe a b = true) := by
          rw [hrows]
          exact List.sorted_mergeSort
            (fun a b c => lexLe_trans a b c)
            (fun a b => by
              rcases lexLe_total a b with h | h <;> simp [h]) _
        have hstartP : (∀ r ∈ rows, r ≠ []) →
            rows.Pairwise (fun a b => rowStart a ≤ rowStart b) := by
          intro hne
          refine hsorted.imp_of_mem ?_
          intro a b ha hb hab
          rcases a with _ | ⟨a0, ar⟩
          · exact absurd rfl (hne _ ha)
          rcases b with _ | ⟨b0, br⟩
          · exact absurd rfl (hne _ hb)
          exact lexLe_head_le a0 b0 ar br hab
        refine ⟨hsorted, hstartP, ?_, ?_, ?_⟩
        · intro hshape
          refine hsorted.imp_of_mem ?_
          intro a b ha hb hab
          exact lexLe_startNode g a b (hshape a ha).1 (hshape a ha).2
            (hshape b hb).1 (hshape b hb).2 hab
        · intro hne
          constructor <;>
            · rw [show selectCols _ rows
                = rows.map (fun row => List.filterMap
                    (fun i => row[i]?) _) from rfl,
                List.pairwise_map]
              refine (hstartP hne).imp_of_mem ?_
              intro a b ha hb hab
              rw [rowStart_selectRow a (hne a ha), rowStart_selectRow b (hne b hb)]
              exact hab
        · intro hspan r hr
          rw [hrows] at hr
          rw [List.mem_mergeSort] at hr
          obtain ⟨df, hdf, hrdf⟩ := List.mem_flatten.mp hr
          have hlink := dfs_foldl_urls fetch unzip parse_fn order
            ⟨[], expected_files ud report, [], none⟩ rfl
          rw [show (orchLoopState fetch unzip parse_fn ud report order)
              = order.foldl (processUrl fetch unzip parse_fn)
                ⟨[], expected_files ud report, [], none⟩ from rfl] at hdf
          rw [hlink] at hdf
          obtain ⟨fb, hfb, hdfeq⟩ := List.mem_map.mp hdf
          have hserved := served_foldl_urls fetch unzip parse_fn order
            ⟨[], expected_files ud report, [], none⟩ (by intro fb' h'; cases h')
            fb hfb
          have hinv : StInv (expected_files ud report)
              (order.foldl (processUrl fetch unzip parse_fn)
                ⟨[], expected_files ud report, [], none⟩) := by
            apply stInv_foldl_urls
            refine ⟨List.nodup_dedup _, fun f hf => hf, ?_, ?_, ?_⟩ <;> simp
          have hexp := hinv.2.2.1 fb hfb
          unfold expected_files at hexp
          rw [List.mem_dedup] at hexp
          obtain ⟨p, hp, hname⟩ := List.mem_map.mp hexp
          have hd : p.1 ∈ dates :=
            urls_dict_keys_sub_dates fetch dates report ud missing hres p hp
          have hbound := hspan p.1 hd fb.2 (by rw [hname]; exact hserved) r
            (by rw [← hdfeq] at hrdf; exact hrdf)
          exact ⟨le_trans (spanLo_le_of_mem dates p.1 hd) hbound.1,
            lt_of_lt_of_le hbound.2 (le_spanHi_of_mem dates p.1 hd)⟩

/-- Witness for C3: a one-day batch retrieval returning a single
well-formed 5-minute row yields a table sorted by (start, node) whose
row start lies within the requested date span. -/
theorem C3_sorted_within_span_witness :
    ([[28421280, 28421285, 100]] : DataFrame).Pairwise startNodeLe ∧
    spanLo [wDate1] ≤ 28421280 ∧ (28421280 : Int) < spanHi [wDate1] := by
  have hok : (retrieve_and_parse_market_report_files fetchPartial unzipNone
      parseConst [wDate1] .FORECAST_AND_LOAD [wUrl1]).2
      = .ok [[28421280, 28421285, 100]] := by
    have h1 : (retrieve_and_parse_market_report_files fetchPartial unzipNone
        parseConst [wDate1] .FORECAST_AND_LOAD [wUrl1]).2
        = .ok (([[[28421280, 28421285, 100]]] :
            List DataFrame).flatten.mergeSort lexLe) := rfl
    rw [h1, show ([[[28421280, 28421285, 100]]] :
      List DataFrame).flatten = [[28421280, 28421285, 100]] from rfl,
      mergeSort_single]
  have h := C3_sorted_within_span fetchPartial unzipNone parseConst [wDate1]
    .FORECAST_AND_LOAD [wUrl1] 5 [[28421280, 28421285, 100]] hok
  refine ⟨h.2.2.1 ?_, ?_⟩
  · intro r hr
    rw [List.mem_singleton.mp hr]
    exact ⟨by decide, by decide⟩
  · have hspan := h.2.2.2.2 ?_ [28421280, 28421285, 100]
      (List.mem_singleton.mpr rfl)
    · exact hspan
    · intro d hd b hsv r hr
      rw [List.mem_singleton.mp hd] at *
      have hr' : r = [28421280, 28421285, 100] := List.mem_singleton.mp hr
      rw [hr']
      exact ⟨by decide, by decide⟩

/-- C7: invoking the fuel-mix facade with Today fails immediately with
the unsupported-mode condition — raised as NotImplementedError in the
source, named UnsupportedModeError by the spec's error taxonomy — and
performs zero network calls. -/
theorem C7_fuel_mix_today_unsupported {α : Type} (fetch : Fetch α)
    (unzip : α → Option (List (String × α)))
    (parse_api : α → Except PyError DataFrame)
    (parse_report : α → DataFrame) (order : List Url) :
    get_fuel_mix_data fetch unzip parse_api parse_report order .today
      = ⟨[], [], .error .notImplementedError⟩ := rfl

/-- C10: every facade operation called with an empty HistoryRange is
accepted by the mode dispatch (the vacuous isinstance guard holds, so no
DatesTypeError is raised), fetches no URL, and fails with the ValueError
pd.concat raises on zero tables (emptyConcat) instead of returning an
empty canonical table. -/
theorem C10_empty_history_raises {α : Type} (fetch : Fetch α)
    (unzip : α → Option (List (String × α)))
    (json_load : α → Except PyError LoadApiPayload)
    (parse_api : α → Except PyError DataFrame)
    (parse_report : α → DataFrame)
    (today : Date) (current_hour : Int) (price_type : MISOMarketReport) :
    get_load_data fetch unzip json_load parse_report [] (.history [])
      = ⟨[], [], .error (.orch .emptyConcat)⟩ ∧
    get_forecast_data fetch unzip json_load parse_report [] current_hour
        (.history [])
      = ⟨[], [], .error (.orch .emptyConcat)⟩ ∧
    get_fuel_mix_data fetch unzip parse_api parse_report [] (.history [])
      = ⟨[], [], .error (.orch .emptyConcat)⟩ ∧
    get_realtime_lmp_data fetch unzip parse_api parse_report []
        (.history [])
      = ⟨[], [], .error (.orch .emptyConcat)⟩ ∧
    get_dayahead_lmp_data fetch unzip parse_report [] today current_hour
        (.history []) price_type
      = ⟨[], [], .error (.orch .emptyConcat)⟩ :=
  ⟨rfl, rfl, rfl, rfl, rfl⟩

/-- C8 counterexample: on an all-whitespace reference-id string the
trailing EST token is certainly absent, yet the source raises IndexError
(refid_split[-1] on an empty split), not the malformed-reference-id
ValueError the claim requires. -/
theorem C8_counterexample :
    pySplit "" = [] ∧
    parse_api_refid_datetime "" = .error .indexError ∧
    parse_api_refid_datetime ""
      ≠ .error (.valueError "Invalid refid string.") := by
  refine ⟨rfl, rfl, ?_⟩
  intro h
  rw [show parse_api_refid_datetime ""
    = .error .indexError from rfl] at h
  simp at h

/-- C8 (amended): for every reference-id string containing at least one
whitespace-separated token, absence of the trailing EST token or of the
literal Interval marker makes parsing raise the malformed-reference-id
ValueError, and the enclosing live-API parse calls return that error and
no partial table. -/
theorem C8_malformed_refid (s : String) (p : LoadApiPayload)
    (hs : pySplit s ≠ [])
    (hbad : (pySplit s).getLastD "" ≠ "EST" ∨
      ((pySplit s).drop 1).take 2 ≠ ["-", "Interval"])
    (hp : p.refId = s) :
    parse_api_refid_datetime s
      = .error (.valueError "Invalid refid string.") ∧
    parse_load_api_data p
      = .error (.valueError "Invalid refid string.") ∧
    parse_forecast_api_data p
      = .error (.valueError "Invalid refid string.") := by
  have hfirst : parse_api_refid_datetime s
      = .error (.valueError "Invalid refid string.") := by
    unfold parse_api_refid_datetime
    cases hlast : (pySplit s).getLast? with
    | none => exact absurd (List.getLast?_eq_none_iff.mp hlast) hs
    | some t =>
      have ht : t ≠ "EST" ∨
          ((pySplit s).drop 1).take 2 ≠ ["-", "Interval"] := by
        rcases hbad with hb | hb
        · left
          intro hcontra
          apply hb
          rw [List.getLastD_eq_getLast?, hlast, hcontra]
          rfl
        · right
          exact hb
      show (if t ≠ "EST" ∨ ((pySplit s).drop 1).take 2 ≠ ["-", "Interval"]
          then (Except.error (.valueError "Invalid refid string.")
            : Except PyError RefDateTime)
          else strptimeRefid (dropRightChars s 4))
        = .error (.valueError "Invalid refid string.")
      rw [if_pos ht]
  refine ⟨hfirst, ?_, ?_⟩
  · unfold parse_load_api_data
    rw [hp, hfirst]
    rfl
  · unfold parse_forecast_api_data
    rw [hp, hfirst]
    rfl

/-- Witness for the amended C8: a reference-id lacking only the trailing
EST token raises the malformed-reference-id ValueError and the enclosing
load parse returns no table. -/
theorem C8_malformed_refid_witness :
    parse_api_refid_datetime wRefidNoEST
      = .error (.valueError "Invalid refid string.") ∧
    parse_load_api_data wPayloadNoEST
      = .error (.valueError "Invalid refid string.") := by
  have h := C8_malformed_refid wRefidNoEST wPayloadNoEST (by decide)
    (Or.inl (by decide)) rfl
  exact ⟨h.1, h.2.1⟩

/-- C9 counterexample: BaseClient construction registers the connection
pool cleanup with atexit — an implicit process-exit hook — whether or
not a session is injected, refuting the claim that cleanup relies on no
process-exit hook. -/
theorem C9_counterexample :
    InitEffect.registerAtexitHook ∈ baseClientInit true ∧
    InitEffect.registerAtexitHook ∈ baseClientInit false := by
  decide

/-- C9 (amended): the connection pool cleanup is registered with a
process-exit hook at construction, and the client exposes no explicit
release operation, so release is not scoped to any caller exit path in
the source. -/
theorem C9_atexit_cleanup (sessionProvided : Bool) :
    InitEffect.registerAtexitHook ∈ baseClientInit sessionProvided ∧
    clientReleaseOperations = [] := by
  cases sessionProvided <;> exact ⟨by decide, rfl⟩

end Powerviz
